import Mathlib

/-!
Shallow embedding of the wg-ddns monitor (`main.go`): the WireGuard
configuration parser `parseWireGuardConfig`, the change-detection pass
`checkEndpoints`, the service-name transforms of `discoverWireGuardConfigs`
and `restartWireGuardService`, and the API handler `handleRestart`.

Strings are modelled as lists of characters; DNS resolution and the
systemd restart call are modelled as oracle functions, since the code
treats them as opaque external calls.
-/

namespace WgDdns

/-- Strings of the Go program, modelled as lists of characters. -/
abbrev Str := List Char

/-- Resolved IPv4 addresses (`net.IP` values), kept abstract. -/
abbrev IP := Nat

/-- The RE2 character class `\s` used by Go's `regexp`:
space, tab, newline, form feed, carriage return. -/
def goRegexSpace (c : Char) : Bool :=
  c = ' ' || c = '\t' || c = '\n' || c.toNat = 12 || c = '\r'

/-- Go's `unicode.IsSpace`, used by `strings.TrimSpace`: the Unicode
White_Space code points. -/
def goUnicodeIsSpace (c : Char) : Bool :=
  c = ' ' || c = '\t' || c = '\n' || c.toNat = 11 || c.toNat = 12 || c = '\r' ||
  c.toNat = 133 || c.toNat = 160 || c.toNat = 5760 ||
  (8192 ≤ c.toNat && c.toNat ≤ 8202) || c.toNat = 8232 || c.toNat = 8233 ||
  c.toNat = 8239 || c.toNat = 8287 || c.toNat = 12288

/-- Go's `strings.TrimSpace`. -/
def trimSpace (s : Str) : Str :=
  ((s.dropWhile goUnicodeIsSpace).reverse.dropWhile goUnicodeIsSpace).reverse

/-- Split a text on `'\n'` separators, keeping empty segments
(the segment list is never empty). -/
def splitRaw : Str → List Str
  | [] => [[]]
  | c :: rest =>
    if c = '\n' then [] :: splitRaw rest
    else
      match splitRaw rest with
      | [] => [[c]]
      | l :: ls => (c :: l) :: ls

/-- `dropCR` of `bufio.ScanLines`: strip one trailing carriage return. -/
def dropCR (s : Str) : Str :=
  if s.getLast? = some '\r' then s.dropLast else s

/-- The lines produced by `bufio.Scanner` with `ScanLines` on a text:
split on `'\n'`, no final empty token after a trailing newline, and one
trailing `'\r'` stripped from each line. -/
def splitLines (text : Str) : List Str :=
  let parts := splitRaw text
  let parts := if parts.getLast? = some [] then parts.dropLast else parts
  parts.map dropCR

/-- The capture of `\s*(.+)$` (RE2, leftmost-first, `.` excludes `'\n'`)
on the text that follows the `=` sign. -/
def matchCapture (r : Str) : Option Str :=
  let m := r.dropWhile goRegexSpace
  if m ≠ [] then
    if m.contains '\n' then none else some m
  else
    match r.getLast? with
    | some c => if c = '\n' then none else some [c]
    | none => none

/-- `endpointRegex.FindStringSubmatch` for
`^\s*Endpoint\s*=\s*(.+)$`: `some capture` when the line matches. -/
def matchEndpointLine (line : Str) : Option Str :=
  let s1 := line.dropWhile goRegexSpace
  if "Endpoint".data.isPrefixOf s1 then
    match (s1.drop 8).dropWhile goRegexSpace with
    | '=' :: r => matchCapture r
    | _ => none
  else none

/-- First index of a character in a string. -/
def firstIdxOf (c : Char) : Str → Option Nat
  | [] => none
  | x :: xs => if x = c then some 0 else (firstIdxOf c xs).map (· + 1)

/-- Last index of a character in a string (Go's `last` helper in
`net.SplitHostPort`). -/
def lastIdxOf (c : Char) (s : Str) : Option Nat :=
  (firstIdxOf c s.reverse).map (fun i => s.length - 1 - i)

/-- Go's `net.SplitHostPort`: `some (host, port)` exactly when the Go
function returns without error. -/
def splitHostPort (hp : Str) : Option (Str × Str) :=
  match lastIdxOf ':' hp with
  | none => none
  | some i =>
    match hp with
    | [] => none
    | c0 :: _ =>
      if c0 = '[' then
        match firstIdxOf ']' hp with
        | none => none
        | some e =>
          if e + 1 = hp.length then none
          else if e + 1 = i then
            let host := (hp.drop 1).take (e - 1)
            if (hp.drop 1).contains '[' then none
            else if (hp.drop (e + 1)).contains ']' then none
            else some (host, hp.drop (i + 1))
          else none
      else
        let host := hp.take i
        if host.contains ':' then none
        else if hp.contains '[' then none
        else if hp.contains ']' then none
        else some (host, hp.drop (i + 1))

/-- ASCII decimal digit (RE2 `\d`). -/
def isDigit (c : Char) : Bool := '0' ≤ c && c ≤ '9'

/-- Consume a nonempty run of digits: `some (digits, rest)` when the
string starts with a digit. -/
def chompGroup (s : Str) : Option (Str × Str) :=
  let g := s.takeWhile isDigit
  if g = [] then none else some (g, s.dropWhile isDigit)

/-- Consume a literal dot. -/
def chompDot : Str → Option Str
  | '.' :: r => some r
  | _ => none

/-- Scan `digits.digits.digits.digits` at the start of a string,
returning the four digit groups and the unconsumed rest. -/
def ipQuadScan (s : Str) : Option (Str × Str × Str × Str × Str) :=
  (chompGroup s).bind fun p1 => (chompDot p1.2).bind fun r1 =>
  (chompGroup r1).bind fun p2 => (chompDot p2.2).bind fun r2 =>
  (chompGroup r2).bind fun p3 => (chompDot p3.2).bind fun r3 =>
  (chompGroup r3).map fun p4 => (p1.1, p2.1, p3.1, p4.1, p4.2)

/-- `ipRegex.MatchString` for `^\d+\.\d+\.\d+\.\d+`: the string begins
with four dot-separated runs of digits (no end anchor, no range check). -/
def ipPrefixMatch (s : Str) : Bool :=
  (ipQuadScan s).isSome

/-- Numeric value of a digit string. -/
def digitsToNat (s : Str) : Nat :=
  s.foldl (fun n c => n * 10 + (c.toNat - 48)) 0

/-- A literal IPv4 dotted-quad address in the sense of the specification:
exactly four dot-separated nonempty digit groups, each of value at most
255, and nothing else. -/
def isDottedQuad (s : Str) : Bool :=
  match ipQuadScan s with
  | none => false
  | some (g1, g2, g3, g4, rest) =>
    rest.isEmpty && digitsToNat g1 ≤ 255 && digitsToNat g2 ≤ 255 &&
    digitsToNat g3 ≤ 255 && digitsToNat g4 ≤ 255

/-- The `Config` record of the monitor: one monitored endpoint.
`LastIP = none` models the nil `net.IP` (resolution never succeeded). -/
structure Config where
  Interface : Str
  Endpoint : Str
  Hostname : Str
  LastIP : Option IP
deriving DecidableEq, Repr

/-- The body of `parseWireGuardConfig`'s scan loop for one line: the
produced `Config`, or `none` when the line is skipped. `resolve` models
`net.ResolveIPAddr("ip4", ·)` at parse time. -/
def parseLine (resolve : Str → Option IP) (interfaceName : Str)
    (rawLine : Str) : Option Config :=
  match matchEndpointLine (trimSpace rawLine) with
  | none => none
  | some cap =>
    match splitHostPort (trimSpace cap) with
    | none => none
    | some (host, _) =>
      if ipPrefixMatch host then none
      else some { Interface := interfaceName, Endpoint := trimSpace cap,
                  Hostname := host, LastIP := resolve host }

/-- One iteration of `parseWireGuardConfig`'s scan loop on the
accumulated `m.configs`: `m.configs = append(m.configs, config)` when the
line yields a monitorable endpoint. -/
def parseFold (resolve : Str → Option IP) (interfaceName : Str)
    (acc : List Config) (l : Str) : List Config :=
  match parseLine resolve interfaceName l with
  | none => acc
  | some c => acc ++ [c]

/-- `parseWireGuardConfig`: scan the configuration text line by line and
append a `Config` for every matching monitorable `Endpoint` line. -/
def parseWireGuardConfig (resolve : Str → Option IP) (interfaceName : Str)
    (text : Str) : List Config :=
  (splitLines text).foldl (parseFold resolve interfaceName) []

/-- `config.LastIP.Equal(currentIP.IP)`: a nil `net.IP` (resolution never
succeeded) is never equal to a freshly resolved address. -/
def optIPEqual : Option IP → IP → Bool
  | none, _ => false
  | some a, b => a == b

/-- Observable actions of one change-detection pass, in program order.
`setLastIP i v` is the assignment `config.LastIP = currentIP.IP` on the
endpoint at index `i`; `restartCall i name ok` is the call
`m.restartWireGuardService(name)` made for that endpoint, with the
outcome `ok` the code observes (and only logs). -/
inductive Event where
  | setLastIP (idx : Nat) (ip : IP)
  | restartCall (idx : Nat) (interfaceName : Str) (ok : Bool)
deriving DecidableEq, Repr

/-- Index of the endpoint an event belongs to. -/
def Event.idx : Event → Nat
  | .setLastIP i _ => i
  | .restartCall i _ _ => i

/-- Whether an event is a restart call naming interface `name`. -/
def Event.isRestartOf (name : Str) : Event → Bool
  | .restartCall _ n _ => n == name
  | .setLastIP _ _ => false

/-- The loop body of `checkEndpoints` for the endpoint at index `idx`:
resolve the hostname; on failure leave the entry untouched; on success
compare with `LastIP` and, when different, assign the new address and
then call the restart. `resolve` models `net.ResolveIPAddr("ip4", ·)`
and `restartOk` the outcome of `restartWireGuardService`. -/
def checkStep (resolve : Str → Option IP) (restartOk : Str → Bool)
    (idx : Nat) (c : Config) : Config × List Event :=
  match resolve c.Hostname with
  | none => (c, [])
  | some ip =>
    if optIPEqual c.LastIP ip then (c, [])
    else ({ c with LastIP := some ip },
          [.setLastIP idx ip, .restartCall idx c.Interface (restartOk c.Interface)])

/-- The `for i := range m.configs` loop of `checkEndpoints`, carrying the
index of the first endpoint. -/
def checkEndpointsAux (resolve : Str → Option IP) (restartOk : Str → Bool)
    (k : Nat) : List Config → List Config × List Event
  | [] => ([], [])
  | c :: cs =>
    let s := checkStep resolve restartOk k c
    let r := checkEndpointsAux resolve restartOk (k + 1) cs
    (s.1 :: r.1, s.2 ++ r.2)

/-- `checkEndpoints`: one change-detection pass over the registry,
returning the updated registry and the trace of observable actions. -/
def checkEndpoints (resolve : Str → Option IP) (restartOk : Str → Bool)
    (cfgs : List Config) : List Config × List Event :=
  checkEndpointsAux resolve restartOk 0 cfgs

/-- Go's `strings.TrimPrefix`. -/
def trimPrefixOf (s p : Str) : Str :=
  if p.isPrefixOf s then s.drop p.length else s

/-- Go's `strings.TrimSuffix`. -/
def trimSuffixOf (s suf : Str) : Str :=
  if suf.isSuffixOf s then s.take (s.length - suf.length) else s

/-- The recovery transform of `discoverWireGuardConfigs`: strip the
`wg-quick@` prefix and the `.service` suffix from a unit name. -/
def unitToInterfaceName (unitName : Str) : Str :=
  trimSuffixOf (trimPrefixOf unitName "wg-quick@".data) ".service".data

/-- The service-unit name built by `restartWireGuardService`:
`fmt.Sprintf("wg-quick@%s.service", interfaceName)`. -/
def serviceUnitName (interfaceName : Str) : Str :=
  "wg-quick@".data ++ interfaceName ++ ".service".data

/-- The JSON body written by `handleRestart`. -/
structure RestartResponse where
  Success : Bool
  Message : Str
deriving DecidableEq, Repr

/-- `fmt.Sprintf("Only interface '%s' is monitored", single)`. -/
def onlyInterfaceMsg (single : Str) : Str :=
  "Only interface '".data ++ single ++ "' is monitored".data

/-- `fmt.Sprintf("Interface '%s' not found in monitored interfaces", req)`. -/
def notFoundMsg (req : Str) : Str :=
  "Interface '".data ++ req ++ "' not found in monitored interfaces".data

/-- `fmt.Sprintf("Failed to restart interface: %v", err)`, with the error
text abstracted away. -/
def restartFailedMsg : Str :=
  "Failed to restart interface".data

/-- `fmt.Sprintf("Interface '%s' restarted successfully", req)`. -/
def restartedMsg (req : Str) : Str :=
  "Interface '".data ++ req ++ "' restarted successfully".data

/-- `handleRestart` on an already-bound request body: the HTTP status,
the response, and whether a restart call was issued to systemd.
`single` is `m.singleInterface` (`[]` when not in pinned mode) and
`restartOk` models the outcome of `restartWireGuardService`. -/
def handleRestart (single : Str) (cfgs : List Config)
    (restartOk : Str → Bool) (req : Str) : Nat × RestartResponse × Bool :=
  if single ≠ [] ∧ req ≠ single then
    (400, { Success := false, Message := onlyInterfaceMsg single }, false)
  else if !(cfgs.any fun c => c.Interface == req) then
    (404, { Success := false, Message := notFoundMsg req }, false)
  else if restartOk req then
    (200, { Success := true, Message := restartedMsg req }, true)
  else
    (500, { Success := false, Message := restartFailedMsg }, true)

/-- Projection of `parseLine` that ignores the resolver: the host of a
line's monitorable endpoint, when the line produces one. -/
def monitorableHost (l : Str) : Option Str :=
  (parseLine (fun _ => none) [] l).map (·.Hostname)

/-- Default entry used with `List.getD` when indexing the registry. -/
def defaultConfig : Config :=
  { Interface := [], Endpoint := [], Hostname := [], LastIP := none }

/-! ### Helper lemmas about the change-detection pass -/

theorem checkStep_none (resolve : Str → Option IP) (restartOk : Str → Bool)
    (m : Nat) (c : Config) (h : resolve c.Hostname = none) :
    checkStep resolve restartOk m c = (c, []) := by
  unfold checkStep
  rw [h]

theorem checkStep_same (resolve : Str → Option IP) (restartOk : Str → Bool)
    (m : Nat) (c : Config) (ip : IP) (h : resolve c.Hostname = some ip)
    (heq : optIPEqual c.LastIP ip = true) :
    checkStep resolve restartOk m c = (c, []) := by
  unfold checkStep
  rw [h]
  simp [heq]

theorem checkStep_drift (resolve : Str → Option IP) (restartOk : Str → Bool)
    (m : Nat) (c : Config) (ip : IP) (h : resolve c.Hostname = some ip)
    (hne : optIPEqual c.LastIP ip = false) :
    checkStep resolve restartOk m c =
      ({ c with LastIP := some ip },
       [Event.setLastIP m ip,
        Event.restartCall m c.Interface (restartOk c.Interface)]) := by
  unfold checkStep
  rw [h]
  simp [hne]

theorem checkStep_snd_eq (resolve : Str → Option IP) (restartOk : Str → Bool)
    (m : Nat) (c : Config) :
    (checkStep resolve restartOk m c).2 = [] ∨
    ∃ ip, resolve c.Hostname = some ip ∧ optIPEqual c.LastIP ip = false ∧
      (checkStep resolve restartOk m c).2 =
        [Event.setLastIP m ip,
         Event.restartCall m c.Interface (restartOk c.Interface)] := by
  cases h : resolve c.Hostname with
  | none => left; rw [checkStep_none resolve restartOk m c h]
  | some ip =>
    cases heq : optIPEqual c.LastIP ip with
    | true => left; rw [checkStep_same resolve restartOk m c ip h heq]
    | false =>
      right
      exact ⟨ip, rfl, heq, by rw [checkStep_drift resolve restartOk m c ip h heq]⟩

theorem mem_checkStep_idx (resolve : Str → Option IP) (restartOk : Str → Bool)
    (m : Nat) (c : Config) (e : Event)
    (he : e ∈ (checkStep resolve restartOk m c).2) : e.idx = m := by
  rcases checkStep_snd_eq resolve restartOk m c with h | ⟨ip, _, _, h⟩
  · rw [h] at he; cases he
  · rw [h] at he
    simp only [List.mem_cons, List.not_mem_nil, or_false] at he
    rcases he with rfl | rfl <;> rfl

theorem mem_checkStep_restart (resolve : Str → Option IP) (restartOk : Str → Bool)
    (m : Nat) (c : Config) (e : Event) (X : Str)
    (he : e ∈ (checkStep resolve restartOk m c).2)
    (hr : e.isRestartOf X = true) : c.Interface = X := by
  rcases checkStep_snd_eq resolve restartOk m c with h | ⟨ip, _, _, h⟩
  · rw [h] at he; cases he
  · rw [h] at he
    simp only [List.mem_cons, List.not_mem_nil, or_false] at he
    rcases he with rfl | rfl
    · simp [Event.isRestartOf] at hr
    · simpa [Event.isRestartOf] using hr

theorem checkAux_length (resolve : Str → Option IP) (restartOk : Str → Bool) :
    ∀ (cfgs : List Config) (k : Nat),
      ((checkEndpointsAux resolve restartOk k cfgs).1).length = cfgs.length := by
  intro cfgs
  induction cfgs with
  | nil => intro k; rfl
  | cons c cs ih =>
    intro k
    simp only [checkEndpointsAux, List.length_cons, ih (k + 1)]

theorem checkAux_fst_getD (resolve : Str → Option IP) (restartOk : Str → Bool) :
    ∀ (cfgs : List Config) (k i : Nat), i < cfgs.length →
      ((checkEndpointsAux resolve restartOk k cfgs).1).getD i defaultConfig
        = (checkStep resolve restartOk (k + i) (cfgs.getD i defaultConfig)).1 := by
  intro cfgs
  induction cfgs with
  | nil => intro k i h; cases h
  | cons c cs ih =>
    intro k i h
    cases i with
    | zero => rfl
    | succ i' =>
      have h' : i' < cs.length := Nat.lt_of_succ_lt_succ h
      have hk : k + (i' + 1) = (k + 1) + i' := by omega
      simpa only [checkEndpointsAux, List.getD_cons_succ, hk] using ih (k + 1) i' h'

theorem checkAux_events_mem (resolve : Str → Option IP) (restartOk : Str → Bool) :
    ∀ (cfgs : List Config) (k : Nat) (e : Event),
      e ∈ (checkEndpointsAux resolve restartOk k cfgs).2 →
      ∃ j, ∃ _ : j < cfgs.length,
        e ∈ (checkStep resolve restartOk (k + j) (cfgs.getD j defaultConfig)).2 := by
  intro cfgs
  induction cfgs with
  | nil => intro k e he; cases he
  | cons c cs ih =>
    intro k e he
    simp only [checkEndpointsAux, List.mem_append] at he
    rcases he with he | he
    · exact ⟨0, Nat.succ_pos _, by simpa using he⟩
    · rcases ih (k + 1) e he with ⟨j, hj, hmem⟩
      refine ⟨j + 1, Nat.succ_lt_succ hj, ?_⟩
      have hk : k + (j + 1) = (k + 1) + j := by omega
      simpa only [List.getD_cons_succ, hk] using hmem

theorem checkAux_events_decomp (resolve : Str → Option IP) (restartOk : Str → Bool) :
    ∀ (cfgs : List Config) (k i : Nat), i < cfgs.length →
      ∃ pre post,
        (checkEndpointsAux resolve restartOk k cfgs).2
          = pre ++ (checkStep resolve restartOk (k + i) (cfgs.getD i defaultConfig)).2
              ++ post ∧
        (∀ e ∈ pre, ∃ j, ∃ _ : j < cfgs.length, j ≠ i ∧
            e ∈ (checkStep resolve restartOk (k + j) (cfgs.getD j defaultConfig)).2) ∧
        (∀ e ∈ post, ∃ j, ∃ _ : j < cfgs.length, j ≠ i ∧
            e ∈ (checkStep resolve restartOk (k + j) (cfgs.getD j defaultConfig)).2) := by
  intro cfgs
  induction cfgs with
  | nil => intro k i h; cases h
  | cons c cs ih =>
    intro k i h
    cases i with
    | zero =>
      refine ⟨[], (checkEndpointsAux resolve restartOk (k + 1) cs).2, ?_, ?_, ?_⟩
      · simp [checkEndpointsAux]
      · intro e he; cases he
      · intro e he
        rcases checkAux_events_mem resolve restartOk cs (k + 1) e he with ⟨j, hj, hmem⟩
        refine ⟨j + 1, Nat.succ_lt_succ hj, Nat.succ_ne_zero j, ?_⟩
        have hk : k + (j + 1) = (k + 1) + j := by omega
        simpa only [List.getD_cons_succ, hk] using hmem
    | succ i' =>
      have h' : i' < cs.length := Nat.lt_of_succ_lt_succ h
      rcases ih (k + 1) i' h' with ⟨pre, post, heq, hpre, hpost⟩
      have hk : k + (i' + 1) = (k + 1) + i' := by omega
      refine ⟨(checkStep resolve restartOk k c).2 ++ pre, post, ?_, ?_, ?_⟩
      · simp only [checkEndpointsAux, List.getD_cons_succ, hk, heq, List.append_assoc]
      · intro e he
        rcases List.mem_append.mp he with he | he
        · exact ⟨0, Nat.succ_pos _, Nat.succ_ne_zero i' ∘ Eq.symm,
            by simpa using he⟩
        · rcases hpre e he with ⟨j, hj, hne, hmem⟩
          refine ⟨j + 1, Nat.succ_lt_succ hj, fun hc => hne (Nat.succ_injective hc), ?_⟩
          have hk' : k + (j + 1) = (k + 1) + j := by omega
          simpa only [List.getD_cons_succ, hk'] using hmem
      · intro e he
        rcases hpost e he with ⟨j, hj, hne, hmem⟩
        refine ⟨j + 1, Nat.succ_lt_succ hj, fun hc => hne (Nat.succ_injective hc), ?_⟩
        have hk' : k + (j + 1) = (k + 1) + j := by omega
        simpa only [List.getD_cons_succ, hk'] using hmem

/-- A literal dotted-quad satisfies the prefix-only filter regex. -/
theorem isDottedQuad_ipPrefixMatch (s : Str) (h : isDottedQuad s = true) :
    ipPrefixMatch s = true := by
  unfold isDottedQuad at h
  unfold ipPrefixMatch
  cases hq : ipQuadScan s with
  | none => rw [hq] at h; simp at h
  | some q => rfl

/-- Accumulator form of the parse loop: appending per matching line is
`filterMap` of the per-line parse. -/
theorem foldl_parseFold (resolve : Str → Option IP) (iface : Str) :
    ∀ (ls : List Str) (acc : List Config),
      ls.foldl (parseFold resolve iface) acc
        = acc ++ ls.filterMap (parseLine resolve iface) := by
  intro ls
  induction ls with
  | nil => intro acc; simp
  | cons l ls ih =>
    intro acc
    cases h : parseLine resolve iface l with
    | none => simp [List.foldl_cons, parseFold, h, ih, List.filterMap_cons]
    | some c => simp [List.foldl_cons, parseFold, h, ih, List.filterMap_cons]

/-- The parser is the per-line parse mapped over the scanner's lines. -/
theorem parse_eq_filterMap (resolve : Str → Option IP) (iface text : Str) :
    parseWireGuardConfig resolve iface text
      = (splitLines text).filterMap (parseLine resolve iface) := by
  unfold parseWireGuardConfig
  exact (foldl_parseFold resolve iface (splitLines text) []).trans
    (List.nil_append _)

/-- The hostname a line contributes does not depend on the resolver or
the interface name. -/
theorem parseLine_hostname (resolve : Str → Option IP) (iface l : Str) :
    (parseLine resolve iface l).map (fun c => c.Hostname) = monitorableHost l := by
  unfold monitorableHost parseLine
  cases h1 : matchEndpointLine (trimSpace l) with
  | none => rfl
  | some cap =>
    cases h2 : splitHostPort (trimSpace cap) with
    | none => simp [h2]
    | some hp =>
      obtain ⟨host, port⟩ := hp
      cases h3 : ipPrefixMatch host with
      | true => simp [h2, h3]
      | false => simp [h2, h3]

/-- A list is a Boolean prefix of itself followed by anything. -/
theorem isPrefixOf_append_self (p t : Str) : p.isPrefixOf (p ++ t) = true := by
  induction p with
  | nil => simp [List.isPrefixOf]
  | cons a p ih => simp [List.isPrefixOf, ih]

/-- After the first pass every endpoint that resolves is up to date, so a
second pass with the same resolver changes nothing and emits no events. -/
theorem checkAux_stable (resolve : Str → Option IP) (ro ro' : Str → Bool) :
    ∀ (cfgs : List Config) (k k' : Nat),
      (∀ c ∈ cfgs, (resolve c.Hostname).isSome = true) →
      checkEndpointsAux resolve ro' k' ((checkEndpointsAux resolve ro k cfgs).1)
        = ((checkEndpointsAux resolve ro k cfgs).1, []) := by
  intro cfgs
  induction cfgs with
  | nil => intro k k' _; rfl
  | cons c cs ih =>
    intro k k' h
    have hc : (resolve c.Hostname).isSome = true := h c (List.mem_cons_self c cs)
    rcases Option.isSome_iff_exists.mp hc with ⟨v, hv⟩
    have hcs : ∀ x ∈ cs, (resolve x.Hostname).isSome = true :=
      fun x hx => h x (List.mem_cons_of_mem c hx)
    have ihcs := ih (k + 1) (k' + 1) hcs
    cases heq : optIPEqual c.LastIP v with
    | true =>
      have hstep := checkStep_same resolve ro k c v hv heq
      have hstep' := checkStep_same resolve ro' k' c v hv heq
      simp only [checkEndpointsAux, hstep, hstep', ihcs, List.nil_append]
    | false =>
      have hstep := checkStep_drift resolve ro k c v hv heq
      have hstep' : checkStep resolve ro' k' { c with LastIP := some v }
          = ({ c with LastIP := some v }, []) :=
        checkStep_same resolve ro' k' { c with LastIP := some v } v hv
          (by simp [optIPEqual])
      simp only [checkEndpointsAux, hstep, hstep', ihcs, List.nil_append]

/-- Go's `List.isSuffixOf` analogue of `isPrefixOf_append_self`: a list
is a Boolean suffix of anything followed by itself. -/
theorem isSuffixOf_append_self (t suf : Str) : suf.isSuffixOf (t ++ suf) = true := by
  unfold List.isSuffixOf
  rw [List.reverse_append]
  exact isPrefixOf_append_self _ _

/-! ### Claim theorems -/

/-- C8: building the service-unit name (`wg-quick@` + interface +
`.service`, as in `restartWireGuardService`) and then applying the
discovery recovery transform (strip the `wg-quick@` prefix and the
`.service` suffix, as in `discoverWireGuardConfigs`) yields the interface
name back: the two transforms are exact inverses on interface names. -/
theorem c8_theorem (s : Str) : unitToInterfaceName (serviceUnitName s) = s := by
  unfold unitToInterfaceName serviceUnitName trimPrefixOf trimSuffixOf
  rw [List.append_assoc, isPrefixOf_append_self, if_pos rfl, List.drop_left,
    isSuffixOf_append_self, if_pos rfl, List.length_append, Nat.add_sub_cancel,
    List.take_left]

/-- C9: in pinned (single-interface) mode, a restart request naming a
different interface is rejected with HTTP 400 and an "Only interface X
is monitored" message, and no restart call is issued to systemd. -/
theorem c9_theorem (single : Str) (cfgs : List Config)
    (restartOk : Str → Bool) (req : Str)
    (h1 : single ≠ []) (h2 : req ≠ single) :
    handleRestart single cfgs restartOk req
      = (400, { Success := false, Message := onlyInterfaceMsg single }, false) := by
  unfold handleRestart
  rw [if_pos ⟨h1, h2⟩]

/-- C9 witness: pinned to `wg0`, a request for `wg1` is rejected and no
restart is issued. -/
theorem c9_witness :
    "wg0".data ≠ [] ∧ "wg1".data ≠ "wg0".data ∧
    handleRestart "wg0".data [] (fun _ => false) "wg1".data
      = (400, { Success := false, Message := onlyInterfaceMsg "wg0".data }, false) :=
  ⟨by decide, by decide,
   c9_theorem "wg0".data [] (fun _ => false) "wg1".data (by decide) (by decide)⟩

/-- C4: an `Endpoint` line whose host portion is a literal IPv4
dotted-quad address produces no `Config`: the line is skipped by the
literal-IP filter. -/
theorem c4_theorem (resolve : Str → Option IP) (iface l cap host port : Str)
    (h1 : matchEndpointLine (trimSpace l) = some cap)
    (h2 : splitHostPort (trimSpace cap) = some (host, port))
    (h3 : isDottedQuad host = true) :
    parseLine resolve iface l = none := by
  have hp := isDottedQuad_ipPrefixMatch host h3
  unfold parseLine
  simp [h1, h2, hp]

/-- C4 witness: `Endpoint = 1.2.3.4:51820` is an endpoint line whose
host is the literal IPv4 address `1.2.3.4`, and it yields no `Config`. -/
theorem c4_witness :
    matchEndpointLine (trimSpace "Endpoint = 1.2.3.4:51820".data)
        = some "1.2.3.4:51820".data ∧
    splitHostPort (trimSpace "1.2.3.4:51820".data)
        = some ("1.2.3.4".data, "51820".data) ∧
    isDottedQuad "1.2.3.4".data = true ∧
    parseLine (fun _ => none) "wg0".data "Endpoint = 1.2.3.4:51820".data = none :=
  ⟨by decide, by decide, by decide,
   c4_theorem (fun _ => none) "wg0".data "Endpoint = 1.2.3.4:51820".data
     "1.2.3.4:51820".data "1.2.3.4".data "51820".data
     (by decide) (by decide) (by decide)⟩

/-- C10: the literal-IP filter only tests whether the host begins with
four dot-separated digit groups (`^\d+\.\d+\.\d+\.\d+`, no end anchor,
no 0-255 range check): every endpoint line whose host has such a prefix
produces no `Config`, whether or not the host is an IPv4 address. -/
theorem c10_theorem (resolve : Str → Option IP) (iface l cap host port : Str)
    (h1 : matchEndpointLine (trimSpace l) = some cap)
    (h2 : splitHostPort (trimSpace cap) = some (host, port))
    (h3 : ipPrefixMatch host = true) :
    parseLine resolve iface l = none := by
  unfold parseLine
  simp [h1, h2, h3]

/-- C10 witness: the real hostname `1.2.3.4.example.com` and the
non-address `999.0.0.1` are not literal IPv4 addresses, yet endpoint
lines with those hosts produce no `Config`. -/
theorem c10_witness :
    isDottedQuad "1.2.3.4.example.com".data = false ∧
    isDottedQuad "999.0.0.1".data = false ∧
    parseLine (fun _ => none) "wg0".data
        "Endpoint = 1.2.3.4.example.com:51820".data = none ∧
    parseLine (fun _ => none) "wg0".data
        "Endpoint = 999.0.0.1:51820".data = none :=
  ⟨by decide, by decide,
   c10_theorem (fun _ => none) "wg0".data "Endpoint = 1.2.3.4.example.com:51820".data
     "1.2.3.4.example.com:51820".data "1.2.3.4.example.com".data "51820".data
     (by decide) (by decide) (by decide),
   c10_theorem (fun _ => none) "wg0".data "Endpoint = 999.0.0.1:51820".data
     "999.0.0.1:51820".data "999.0.0.1".data "51820".data
     (by decide) (by decide) (by decide)⟩

/-- C1 counterexample: a configuration with two matching `Endpoint`
lines produces two `Config` entries, in file order — not zero or one,
and not only the last line: the first line's endpoint is registered
too. -/
theorem c1_counterexample :
    (parseWireGuardConfig (fun _ => none) "wg0".data
        "Endpoint = a.example.com:1\nEndpoint = b.example.com:2".data).map
      (fun c => c.Hostname)
      = ["a.example.com".data, "b.example.com".data] := by decide

/-- C1 amended: the parser produces one `Config` per matching
monitorable `Endpoint` line, in file order (every matching line
contributes an entry, not only the last one). -/
theorem c1_theorem (resolve : Str → Option IP) (iface text : Str) :
    parseWireGuardConfig resolve iface text
        = (splitLines text).filterMap (parseLine resolve iface) ∧
    ∀ c, c ∈ parseWireGuardConfig resolve iface text ↔
      ∃ l, l ∈ splitLines text ∧ parseLine resolve iface l = some c := by
  refine ⟨parse_eq_filterMap resolve iface text, fun c => ?_⟩
  rw [parse_eq_filterMap]
  exact List.mem_filterMap

/-- C2 counterexample: a reachable registry (the parse of a
configuration with two host-less `Endpoint` lines) has two entries with
the same `interfaceName` and with empty hostnames, violating both the
uniqueness and the non-emptiness invariants. -/
theorem c2_counterexample :
    (parseWireGuardConfig (fun _ => none) "wg0".data
        "Endpoint = :51820\nEndpoint = :51821".data).map
      (fun c => (c.Interface, c.Hostname))
      = [("wg0".data, []), ("wg0".data, [])] := by decide

/-- C2 amended: a change-detection pass preserves every entry's
`Interface`, `Hostname` and `Endpoint`, and its `LastIP` is either left
unchanged or overwritten with the value of a successful resolution of
its hostname — a failed resolution never clears or updates it.
(Interface-name uniqueness and hostname non-emptiness do not hold in
general.) -/
theorem c2_theorem (resolve : Str → Option IP) (restartOk : Str → Bool)
    (cfgs : List Config) (i : Nat) (h : i < cfgs.length) :
    ((checkEndpoints resolve restartOk cfgs).1.getD i defaultConfig).Interface
        = (cfgs.getD i defaultConfig).Interface ∧
    ((checkEndpoints resolve restartOk cfgs).1.getD i defaultConfig).Hostname
        = (cfgs.getD i defaultConfig).Hostname ∧
    ((checkEndpoints resolve restartOk cfgs).1.getD i defaultConfig).Endpoint
        = (cfgs.getD i defaultConfig).Endpoint ∧
    (((checkEndpoints resolve restartOk cfgs).1.getD i defaultConfig).LastIP
        = (cfgs.getD i defaultConfig).LastIP ∨
     ∃ ip, resolve (cfgs.getD i defaultConfig).Hostname = some ip ∧
       ((checkEndpoints resolve restartOk cfgs).1.getD i defaultConfig).LastIP
         = some ip) := by
  have hg : (checkEndpoints resolve restartOk cfgs).1.getD i defaultConfig
      = (checkStep resolve restartOk i (cfgs.getD i defaultConfig)).1 := by
    have hg0 := checkAux_fst_getD resolve restartOk cfgs 0 i h
    rw [Nat.zero_add] at hg0
    exact hg0
  rw [hg]
  cases hr : resolve (cfgs.getD i defaultConfig).Hostname with
  | none =>
    rw [checkStep_none resolve restartOk i _ hr]
    exact ⟨rfl, rfl, rfl, Or.inl rfl⟩
  | some ip =>
    cases heq : optIPEqual (cfgs.getD i defaultConfig).LastIP ip with
    | true =>
      rw [checkStep_same resolve restartOk i _ ip hr heq]
      exact ⟨rfl, rfl, rfl, Or.inl rfl⟩
    | false =>
      rw [checkStep_drift resolve restartOk i _ ip hr heq]
      exact ⟨rfl, rfl, rfl, Or.inr ⟨ip, rfl, rfl⟩⟩

/-- C2 witness: on a one-entry registry whose hostname resolves, the
pass keeps the hostname and records the resolved address. -/
theorem c2_witness :
    ((checkEndpoints (fun _ => some 5) (fun _ => true)
        [{ Interface := "wg0".data, Endpoint := [], Hostname := "h".data,
           LastIP := none }]).1.getD 0 defaultConfig).Hostname
      = ({ Interface := "wg0".data, Endpoint := [], Hostname := "h".data,
           LastIP := none } : Config).Hostname :=
  (c2_theorem (fun _ => some 5) (fun _ => true)
    [{ Interface := "wg0".data, Endpoint := [], Hostname := "h".data,
       LastIP := none }] 0 (by decide)).2.1

/-- C6: when resolution fails for the endpoint at index `i`, that entry
is left untouched and no event of the pass — in particular no restart —
belongs to it, while every other endpoint is still processed by its own
step in registry order. -/
theorem c6_theorem (resolve : Str → Option IP) (restartOk : Str → Bool)
    (cfgs : List Config) (i : Nat) (h : i < cfgs.length)
    (hfail : resolve ((cfgs.getD i defaultConfig).Hostname) = none) :
    ((checkEndpoints resolve restartOk cfgs).1.getD i defaultConfig
        = cfgs.getD i defaultConfig) ∧
    (∀ e ∈ (checkEndpoints resolve restartOk cfgs).2, e.idx ≠ i) ∧
    ((checkEndpoints resolve restartOk cfgs).1.length = cfgs.length) ∧
    (∀ j, j < cfgs.length →
      (checkEndpoints resolve restartOk cfgs).1.getD j defaultConfig
        = (checkStep resolve restartOk j (cfgs.getD j defaultConfig)).1) := by
  have hall : ∀ j, j < cfgs.length →
      (checkEndpoints resolve restartOk cfgs).1.getD j defaultConfig
        = (checkStep resolve restartOk j (cfgs.getD j defaultConfig)).1 := by
    intro j hj
    have hg := checkAux_fst_getD resolve restartOk cfgs 0 j hj
    rw [Nat.zero_add] at hg
    exact hg
  refine ⟨?_, ?_, ?_, hall⟩
  · rw [hall i h, checkStep_none resolve restartOk i _ hfail]
  · intro e he
    rcases checkAux_events_mem resolve restartOk cfgs 0 e he with ⟨j, hj, hmem⟩
    rw [Nat.zero_add] at hmem
    have hidx := mem_checkStep_idx resolve restartOk j _ e hmem
    intro hcontra
    rw [hidx] at hcontra
    subst hcontra
    rw [checkStep_none resolve restartOk j _ hfail] at hmem
    cases hmem
  · exact checkAux_length resolve restartOk cfgs 0

/-- C6 witness: on a one-entry registry whose resolution fails, the
entry is unchanged after the pass. -/
theorem c6_witness :
    (checkEndpoints (fun _ => none) (fun _ => true)
        [{ Interface := "wg0".data, Endpoint := [], Hostname := "h".data,
           LastIP := some 3 }]).1.getD 0 defaultConfig
      = ([{ Interface := "wg0".data, Endpoint := [], Hostname := "h".data,
            LastIP := some 3 }] : List Config).getD 0 defaultConfig :=
  (c6_theorem (fun _ => none) (fun _ => true)
    [{ Interface := "wg0".data, Endpoint := [], Hostname := "h".data,
       LastIP := some 3 }] 0 (by decide) (by decide)).1

/-- C7: running the change-detection pass twice with a resolver that
succeeds on every registered hostname leaves the registry of the first
pass unchanged and emits no events — in particular no restart — during
the second pass, for any restart outcomes. -/
theorem c7_theorem (resolve : Str → Option IP) (ro ro' : Str → Bool)
    (cfgs : List Config)
    (h : ∀ c ∈ cfgs, (resolve c.Hostname).isSome = true) :
    checkEndpoints resolve ro' ((checkEndpoints resolve ro cfgs).1)
      = ((checkEndpoints resolve ro cfgs).1, []) :=
  checkAux_stable resolve ro ro' cfgs 0 0 h

/-- C7 witness: a one-entry registry with an always-successful resolver:
the second pass is a no-op with an empty event trace. -/
theorem c7_witness :
    checkEndpoints (fun _ => some 1) (fun _ => false)
        ((checkEndpoints (fun _ => some 1) (fun _ => true)
          [{ Interface := "wg0".data, Endpoint := [], Hostname := "h".data,
             LastIP := none }]).1)
      = ((checkEndpoints (fun _ => some 1) (fun _ => true)
          [{ Interface := "wg0".data, Endpoint := [], Hostname := "h".data,
             LastIP := none }]).1, []) :=
  c7_theorem (fun _ => some 1) (fun _ => true) (fun _ => false)
    [{ Interface := "wg0".data, Endpoint := [], Hostname := "h".data,
       LastIP := none }] (by decide)

/-- C3 counterexample: a reachable registry can hold two endpoints of
the same interface (one configuration file with two monitorable
`Endpoint` lines); when both drift in one pass, two restarts of that
interface are triggered — not exactly one. -/
theorem c3_counterexample :
    ((checkEndpoints (fun _ => some 2) (fun _ => true)
        (parseWireGuardConfig (fun _ => some 1) "wg0".data
          "Endpoint = h1.example.com:1\nEndpoint = h2.example.com:2".data)).2.filter
      (Event.isRestartOf "wg0".data)).length = 2 := by decide

/-- C3 amended: for an endpoint whose interface no other registry entry
shares, if its `LastIP` is `A` and resolution returns `B ≠ A`, the pass
records `B` as the new `LastIP`, triggers exactly one restart of that
interface, and in the action trace the `LastIP` update immediately
precedes the restart call — all regardless of the restart outcome. -/
theorem c3_theorem (resolve : Str → Option IP) (restartOk : Str → Bool)
    (cfgs : List Config) (i : Nat) (A B : IP) (h : i < cfgs.length)
    (hA : (cfgs.getD i defaultConfig).LastIP = some A)
    (hB : resolve (cfgs.getD i defaultConfig).Hostname = some B)
    (hne : B ≠ A)
    (huniq : ∀ j, j < cfgs.length → j ≠ i →
      (cfgs.getD j defaultConfig).Interface
        ≠ (cfgs.getD i defaultConfig).Interface) :
    (((checkEndpoints resolve restartOk cfgs).1.getD i defaultConfig).LastIP
        = some B) ∧
    (((checkEndpoints resolve restartOk cfgs).2.filter
        (Event.isRestartOf (cfgs.getD i defaultConfig).Interface)).length = 1) ∧
    ∃ pre post, (checkEndpoints resolve restartOk cfgs).2
      = pre ++ [Event.setLastIP i B,
                Event.restartCall i (cfgs.getD i defaultConfig).Interface
                  (restartOk (cfgs.getD i defaultConfig).Interface)] ++ post := by
  have hopt : optIPEqual (cfgs.getD i defaultConfig).LastIP B = false := by
    rw [hA]
    simp only [optIPEqual]
    exact beq_eq_false_iff_ne.mpr (Ne.symm hne)
  have hstep := checkStep_drift resolve restartOk i (cfgs.getD i defaultConfig) B hB hopt
  have hmid : (checkStep resolve restartOk i (cfgs.getD i defaultConfig)).2
      = [Event.setLastIP i B,
         Event.restartCall i (cfgs.getD i defaultConfig).Interface
           (restartOk (cfgs.getD i defaultConfig).Interface)] := by
    rw [hstep]
  obtain ⟨pre, post, hd, hpre, hpost⟩ :=
    checkAux_events_decomp resolve restartOk cfgs 0 i h
  rw [Nat.zero_add, hmid] at hd
  have hd' : (checkEndpoints resolve restartOk cfgs).2
      = pre ++ [Event.setLastIP i B,
                Event.restartCall i (cfgs.getD i defaultConfig).Interface
                  (restartOk (cfgs.getD i defaultConfig).Interface)] ++ post := hd
  have hzero : ∀ (lst : List Event),
      (∀ e ∈ lst, ∃ j, ∃ _ : j < cfgs.length, j ≠ i ∧
        e ∈ (checkStep resolve restartOk (0 + j) (cfgs.getD j defaultConfig)).2) →
      lst.filter (Event.isRestartOf (cfgs.getD i defaultConfig).Interface) = [] := by
    intro lst hl
    rw [List.filter_eq_nil_iff]
    intro e he hrest
    rcases hl e he with ⟨j, hj, hjne, hmem⟩
    exact huniq j hj hjne
      (mem_checkStep_restart resolve restartOk (0 + j) _ e _ hmem hrest)
  refine ⟨?_, ?_, pre, post, hd'⟩
  · have hg : (checkEndpoints resolve restartOk cfgs).1.getD i defaultConfig
        = (checkStep resolve restartOk i (cfgs.getD i defaultConfig)).1 := by
      have hg0 := checkAux_fst_getD resolve restartOk cfgs 0 i h
      rw [Nat.zero_add] at hg0
      exact hg0
    rw [hg, hstep]
  · rw [hd', List.filter_append, List.filter_append, hzero pre hpre,
      hzero post hpost]
    simp [Event.isRestartOf, beq_self_eq_true]

/-- C3 witness: a one-entry registry with `LastIP = 1` resolving to `2`
records the new address. -/
theorem c3_witness :
    (((checkEndpoints (fun _ => some 2) (fun _ => true)
        [{ Interface := "wg0".data, Endpoint := [], Hostname := "h".data,
           LastIP := some 1 }]).1.getD 0 defaultConfig).LastIP = some 2) :=
  (c3_theorem (fun _ => some 2) (fun _ => true)
    [{ Interface := "wg0".data, Endpoint := [], Hostname := "h".data,
       LastIP := some 1 }] 0 1 2 (by decide) (by decide) (by decide) (by decide)
    (fun j hj hjne => absurd (Nat.lt_one_iff.mp hj) hjne)).1

/-- C5 counterexample: a configuration whose only `Endpoint` line has
host `1.2.3.4.example.com` — a well-formed `host:port` whose host is not
a literal IPv4 address — produces no `Config` at all, because the filter
only inspects a digit-quad prefix of the host. -/
theorem c5_counterexample :
    matchEndpointLine (trimSpace "Endpoint = 1.2.3.4.example.com:51820".data)
        = some "1.2.3.4.example.com:51820".data ∧
    splitHostPort "1.2.3.4.example.com:51820".data
        = some ("1.2.3.4.example.com".data, "51820".data) ∧
    isDottedQuad "1.2.3.4.example.com".data = false ∧
    parseWireGuardConfig (fun _ => none) "wg0".data
        "Endpoint = 1.2.3.4.example.com:51820".data = [] := by decide

/-- C5 amended: for every configuration text whose lines contain exactly
one `Endpoint = host:port` line whose host passes the monitorability
filter (the host does not begin with a `digits.digits.digits.digits`
prefix), the parser produces exactly one `Config`, whose hostname is
that host. -/
theorem c5_theorem (resolve : Str → Option IP) (iface text host : Str)
    (h : (splitLines text).filterMap monitorableHost = [host]) :
    (parseWireGuardConfig resolve iface text).length = 1 ∧
    (parseWireGuardConfig resolve iface text).map (fun c => c.Hostname)
      = [host] := by
  have hm : (parseWireGuardConfig resolve iface text).map (fun c => c.Hostname)
      = (splitLines text).filterMap monitorableHost := by
    rw [parse_eq_filterMap, List.map_filterMap]
    simp only [parseLine_hostname]
  have hm' := hm.trans h
  constructor
  · have hlen := congrArg List.length hm'
    simpa using hlen
  · exact hm'

/-- C5 witness: a configuration with the single line
`Endpoint = vpn.example.com:51820` yields exactly one `Config` with
hostname `vpn.example.com`. -/
theorem c5_witness :
    ((splitLines "Endpoint = vpn.example.com:51820".data).filterMap monitorableHost
        = ["vpn.example.com".data]) ∧
    (parseWireGuardConfig (fun _ => none) "wg0".data
        "Endpoint = vpn.example.com:51820".data).length = 1 ∧
    (parseWireGuardConfig (fun _ => none) "wg0".data
        "Endpoint = vpn.example.com:51820".data).map (fun c => c.Hostname)
      = ["vpn.example.com".data] :=
  ⟨by decide,
   c5_theorem (fun _ => none) "wg0".data
     "Endpoint = vpn.example.com:51820".data "vpn.example.com".data (by decide)⟩

end WgDdns
